import Mathlib

/-!
A verification development for the browser-streaming repository.

The definitions below are shallow embeddings of the TypeScript sources:

* `src/src/clone/NetworkCache.ts` — the `NetworkCache` class
  (`getCacheKey`, `shouldCache`, `set`, `get`, `getStats`, `clear`,
  `export`, `import`) and the clone orchestrator in the same file
  (`cloneSession`, `setupCacheInterception`, `replayEvents`,
  `getCacheKey` clone-side copy, `disposeTarget`).
* `src/src/clone/StateSnapshot.ts` — `createPendingSessionStore`.
* `src/server.ts` — the websocket `message` handler's mouse-move
  aggregation and its `navigate` case.
* `src/message-handlers.ts` — `normalizeUrl` and the `navigate` case of
  `handleMessage`.

JavaScript `Map` objects are modelled as association lists that keep
insertion order (re-setting an existing key keeps its position, which is
exactly `Map.set`), JS numbers as `Int`/`Nat`/`ℚ` as noted at each
definition, and `Buffer` bodies as `List Nat` of bytes.
-/

/-- Association-list lookup, modelling `Map.get` / JS object indexing with
string keys. -/
def lookupKey {β : Type} (k : String) : List (String × β) → Option β
  | [] => none
  | e :: rest => if e.1 = k then some e.2 else lookupKey k rest

/-- Association-list update, modelling `Map.set`: an existing key keeps its
original insertion position; a fresh key is appended at the end. -/
def updateAssoc {β : Type} (l : List (String × β)) (k : String) (v : β) :
    List (String × β) :=
  match l with
  | [] => [(k, v)]
  | e :: rest => if e.1 = k then (k, v) :: rest else e :: updateAssoc rest k v

/-- Association-list removal, modelling `Map.delete` of a single key. -/
def eraseKey {β : Type} : List (String × β) → String → List (String × β)
  | [], _ => []
  | e :: rest, k => if e.1 = k then rest else e :: eraseKey rest k

/-- One captured HTTP exchange (`CachedResponse` in `types.ts`).  The binary
`Buffer` body is a byte list; `body.length` is its byte length exactly as in
the source.  Optional `statusText`/`timing` fields are omitted: no claim and
no modelled operation reads them. -/
structure CachedResponse where
  requestId : String
  url : String
  method : String
  requestHeaders : List (String × String)
  postData : Option String
  status : Nat
  responseHeaders : List (String × String)
  body : List Nat
  mimeType : String
  resourceType : String
  timestamp : Nat
deriving DecidableEq, Repr

/-- The `NetworkCache` state: the internal `Map` as an insertion-ordered
association list, the running `totalSize`, and the two policy ceilings fixed
at construction.  JS numeric fields are `Int`. -/
structure NetworkCache where
  cache : List (String × CachedResponse)
  totalSize : Int
  maxSize : Int
  maxResponseSize : Int
deriving DecidableEq, Repr

/-- `new NetworkCache(options)` with explicit ceilings. -/
def NetworkCache.mkCache (maxSize maxResponseSize : Int) : NetworkCache :=
  { cache := [], totalSize := 0, maxSize := maxSize,
    maxResponseSize := maxResponseSize }

/-- `new NetworkCache()` with the constructor defaults: 500 MiB global
ceiling, 10 MiB per-response ceiling. -/
def NetworkCache.mkDefault : NetworkCache :=
  NetworkCache.mkCache (500 * 1024 * 1024) (10 * 1024 * 1024)

/-- The `essentialTypes` array inside `shouldCache`. -/
def essentialTypes : List String :=
  ["document", "script", "stylesheet", "xhr", "fetch"]

/-- `NetworkCache.shouldCache`: essential resource types are always
cacheable; otherwise only responses with body length strictly below the
per-response ceiling.  (In the source `response.resourceType &&` guards the
membership test; an empty string is never in `essentialTypes`, so plain
membership is equivalent.  `response.body` is a `Buffer`, which is truthy
even when empty.) -/
def NetworkCache.shouldCache (c : NetworkCache) (r : CachedResponse) : Bool :=
  if essentialTypes.contains r.resourceType then true
  else if (r.body.length : Int) < c.maxResponseSize then true
  else false

/-- Body length of an already-stored same-key entry (`oldSize` in `set`),
zero when the key is absent. -/
def NetworkCache.oldSize (c : NetworkCache) (key : String) : Int :=
  match lookupKey key c.cache with
  | some existing => (existing.body.length : Int)
  | none => 0

/-- `NetworkCache.set`: returns the boolean result together with the updated
cache.  Mirrors the source exactly: reject when `shouldCache` fails; reject
when the net size change (new body length minus any replaced entry's body
length) would push `totalSize` over `maxSize`; otherwise store and update
`totalSize` by the net change. -/
def NetworkCache.set (c : NetworkCache) (key : String) (r : CachedResponse) :
    Bool × NetworkCache :=
  if ¬ c.shouldCache r then (false, c)
  else
    let responseSize : Int := (r.body.length : Int)
    let netSizeChange : Int := responseSize - c.oldSize key
    if c.totalSize + netSizeChange > c.maxSize then (false, c)
    else
      (true,
        { c with
          cache := updateAssoc c.cache key r,
          totalSize := c.totalSize + netSizeChange })

/-- `NetworkCache.get`. -/
def NetworkCache.get (c : NetworkCache) (key : String) : Option CachedResponse :=
  lookupKey key c.cache

/-- The `entries`/`totalSize` part of `NetworkCache.getStats`. -/
structure CacheStats where
  entries : Nat
  totalSize : Int
deriving DecidableEq, Repr

/-- `NetworkCache.getStats` (entry count and total byte size). -/
def NetworkCache.getStats (c : NetworkCache) : CacheStats :=
  { entries := c.cache.length, totalSize := c.totalSize }

/-- The `sizeByType` record computed by `NetworkCache.getStats`, as a
function from resource type to accumulated body bytes. -/
def NetworkCache.sizeByType (c : NetworkCache) (t : String) : Nat :=
  ((c.cache.filter (fun e => e.2.resourceType = t)).map
    (fun e => e.2.body.length)).sum

/-- `NetworkCache.clear`: drop all entries, reset `totalSize`. -/
def NetworkCache.clear (c : NetworkCache) : NetworkCache :=
  { c with cache := [], totalSize := 0 }

/-- `NetworkCache.export`: the ordered entry list (keyed as stored). -/
def NetworkCache.exportEntries (c : NetworkCache) :
    List (String × CachedResponse) :=
  c.cache

/-- The loop shared by `import` (which discards the booleans) and the
admission arguments: insert the entries in order, collecting each `set`
result. -/
def NetworkCache.insertAll :
    NetworkCache → List (String × CachedResponse) → NetworkCache × List Bool
  | c, [] => (c, [])
  | c, e :: rest =>
    let step := c.set e.1 e.2
    let next := step.2.insertAll rest
    (next.1, step.1 :: next.2)

/-- `NetworkCache.import`: clear, then re-admit every manifest entry through
`set`.  (The source also coerces each body back to a `Buffer`; bodies are
already byte lists here.) -/
def NetworkCache.importData (c : NetworkCache)
    (data : List (String × CachedResponse)) : NetworkCache :=
  ((c.clear).insertAll data).1

/-! ### Claim C1 — per-entry ceiling vs. resource type -/

/-- An 11 MiB response of the essential resource type `document`. -/
def oversizedDocument : CachedResponse :=
  { requestId := "req-big", url := "https://example.com/big", method := "GET",
    requestHeaders := [], postData := none, status := 200,
    responseHeaders := [], body := List.replicate (11 * 1024 * 1024) 0,
    mimeType := "text/html", resourceType := "document", timestamp := 0 }

/-- A response of the non-essential resource type `image` whose body has
exactly the default per-entry ceiling's length (10 MiB). -/
def oversizedImage : CachedResponse :=
  { requestId := "req-img", url := "https://example.com/pic", method := "GET",
    requestHeaders := [], postData := none, status := 200,
    responseHeaders := [], body := List.replicate (10 * 1024 * 1024) 0,
    mimeType := "image/png", resourceType := "image", timestamp := 0 }

/-- `set` aborts immediately when `shouldCache` fails, leaving the cache
untouched. -/
theorem set_of_shouldCache_false (c : NetworkCache) (key : String)
    (r : CachedResponse) (h : c.shouldCache r = false) :
    c.set key r = (false, c) := by
  simp [NetworkCache.set, h]

/-- Claim C1, counterexample: with the default policy, an 11 MiB response of
resource type `document` (an essential type) exceeds the 10 MiB per-entry
ceiling yet `set` returns `true` and the cache afterwards reports 1 entry —
refuting "rejects the admission regardless of resource type". -/
theorem C1_counterexample :
    NetworkCache.mkDefault.maxResponseSize <
      (oversizedDocument.body.length : Int) ∧
    (NetworkCache.mkDefault.set "k" oversizedDocument).1 = true ∧
    ((NetworkCache.mkDefault.set "k" oversizedDocument).2).getStats.entries
      = 1 := by
  have hlen : oversizedDocument.body.length = 11 * 1024 * 1024 :=
    List.length_replicate _ _
  have hlenZ : (oversizedDocument.body.length : Int) = 11534336 := by
    rw [hlen]; norm_num
  have hrt : oversizedDocument.resourceType = "document" := rfl
  have hsc : ∀ c : NetworkCache, c.shouldCache oversizedDocument = true := by
    intro c
    simp [NetworkCache.shouldCache, hrt, essentialTypes]
  have hset : NetworkCache.mkDefault.set "k" oversizedDocument =
      (true, { cache := [("k", oversizedDocument)], totalSize := 11534336,
               maxSize := 524288000, maxResponseSize := 10485760 }) := by
    norm_num [NetworkCache.set, hsc, hlenZ, NetworkCache.oldSize, lookupKey,
      NetworkCache.mkDefault, NetworkCache.mkCache, updateAssoc]
  refine ⟨?_, ?_, ?_⟩
  · rw [hlenZ]
    norm_num [NetworkCache.mkDefault, NetworkCache.mkCache]
  · rw [hset]
  · rw [hset]
    rfl

/-- Inserting a list of entries that `set` rejects one by one leaves the
cache unchanged. -/
theorem insertAll_all_rejected (entries : List (String × CachedResponse))
    (c : NetworkCache) (h : ∀ e ∈ entries, c.set e.1 e.2 = (false, c)) :
    (c.insertAll entries).1 = c := by
  induction entries with
  | nil => rfl
  | cons e rest ih =>
    have he := h e (List.mem_cons_self e rest)
    simp [NetworkCache.insertAll, he]
    exact ih fun e' he' => h e' (List.mem_cons_of_mem e he')

/-- Claim C1 (amended): `set` rejects oversized responses only for
non-essential resource types — for every response whose resource type is not
in `document/script/stylesheet/xhr/fetch` and whose body length is at least
the per-entry ceiling, `set` returns `false` and stores nothing; and a
default cache that has seen only such insertions reports 0 entries (and 0
bytes) in its stats.  (Essential-type responses are admitted regardless of
body size, subject only to the global ceiling, per `C1_counterexample`.) -/
theorem C1_amended :
    (∀ (c : NetworkCache) (key : String) (r : CachedResponse),
        essentialTypes.contains r.resourceType = false →
        c.maxResponseSize ≤ (r.body.length : Int) →
        c.set key r = (false, c)) ∧
    (∀ entries : List (String × CachedResponse),
        (∀ e ∈ entries,
          essentialTypes.contains e.2.resourceType = false ∧
          NetworkCache.mkDefault.maxResponseSize ≤ (e.2.body.length : Int)) →
        (NetworkCache.mkDefault.insertAll entries).1.getStats =
          { entries := 0, totalSize := 0 }) := by
  have hrej : ∀ (c : NetworkCache) (key : String) (r : CachedResponse),
      essentialTypes.contains r.resourceType = false →
      c.maxResponseSize ≤ (r.body.length : Int) →
      c.set key r = (false, c) := by
    intro c key r h1 h2
    apply set_of_shouldCache_false
    have hnl : ¬ ((r.body.length : Int) < c.maxResponseSize) := not_lt.mpr h2
    have h1m : r.resourceType ∉ essentialTypes := by simpa using h1
    simp [NetworkCache.shouldCache, h1m, hnl]
  refine ⟨hrej, ?_⟩
  intro entries h
  have hfix : (NetworkCache.mkDefault.insertAll entries).1 =
      NetworkCache.mkDefault :=
    insertAll_all_rejected entries _ fun e he =>
      hrej _ e.1 e.2 (h e he).1 (h e he).2
  rw [hfix]
  rfl

/-- Witness for `C1_amended` at concrete inputs: a non-essential 10 MiB
image is rejected by a default cache, and a default cache fed only that
insertion reports empty stats. -/
theorem C1_amended_witness :
    NetworkCache.mkDefault.set "img" oversizedImage =
      (false, NetworkCache.mkDefault) ∧
    (NetworkCache.mkDefault.insertAll [("img", oversizedImage)]).1.getStats =
      { entries := 0, totalSize := 0 } := by
  have hrt : oversizedImage.resourceType = "image" := rfl
  have hmem : essentialTypes.contains oversizedImage.resourceType = false := by
    rw [hrt]; decide
  have hlen : oversizedImage.body.length = 10 * 1024 * 1024 :=
    List.length_replicate _ _
  have hsize : NetworkCache.mkDefault.maxResponseSize ≤
      (oversizedImage.body.length : Int) := by
    rw [hlen]
    norm_num [NetworkCache.mkDefault, NetworkCache.mkCache]
  refine ⟨C1_amended.1 NetworkCache.mkDefault "img" oversizedImage hmem hsize, ?_⟩
  exact C1_amended.2 [("img", oversizedImage)]
    (by intro e he; simp only [List.mem_singleton] at he; subst he
        exact ⟨hmem, hsize⟩)

/-! ### Claim C6 — global ceiling, net-delta accounting -/

/-- `set` never changes the policy ceilings. -/
theorem set_policy_eq (c : NetworkCache) (k : String) (r : CachedResponse) :
    ((c.set k r).2).maxSize = c.maxSize ∧
    ((c.set k r).2).maxResponseSize = c.maxResponseSize := by
  unfold NetworkCache.set
  dsimp only
  split
  · exact ⟨rfl, rfl⟩
  · split
    · exact ⟨rfl, rfl⟩
    · exact ⟨rfl, rfl⟩

/-- The replaced-entry size is never negative. -/
theorem oldSize_nonneg (c : NetworkCache) (k : String) : 0 ≤ c.oldSize k := by
  unfold NetworkCache.oldSize
  split
  · exact Int.natCast_nonneg _
  · exact le_refl 0

/-- `shouldCache` depends only on the per-response ceiling. -/
theorem shouldCache_congr (c c' : NetworkCache) (r : CachedResponse)
    (h : c'.maxResponseSize = c.maxResponseSize) :
    c'.shouldCache r = c.shouldCache r := by
  simp [NetworkCache.shouldCache, h]

/-- After any `set`, the running total grew by at most the new body's
length (gross): a rejection leaves it unchanged, an admission adds the net
change, which is at most the body length. -/
theorem set_totalSize_le (c : NetworkCache) (k : String) (r : CachedResponse) :
    ((c.set k r).2).totalSize ≤ c.totalSize + (r.body.length : Int) := by
  unfold NetworkCache.set
  dsimp only
  split
  · exact le_add_of_nonneg_right (Int.natCast_nonneg _)
  · split
    · exact le_add_of_nonneg_right (Int.natCast_nonneg _)
    · have := oldSize_nonneg c k
      simp only
      omega

/-- `set` admits whenever the policy check passes and the net size change
keeps the total within the global ceiling. -/
theorem set_succeeds (c : NetworkCache) (k : String) (r : CachedResponse)
    (h1 : c.shouldCache r = true)
    (h2 : c.totalSize + ((r.body.length : Int) - c.oldSize k) ≤ c.maxSize) :
    (c.set k r).1 = true := by
  unfold NetworkCache.set
  dsimp only
  rw [h1]
  simp [not_lt.mpr h2]

/-- Inserting a batch whose gross size fits in the remaining budget admits
every entry. -/
theorem insertAll_under_budget :
    ∀ (entries : List (String × CachedResponse)) (c : NetworkCache),
      (∀ e ∈ entries, c.shouldCache e.2 = true) →
      c.totalSize + ((entries.map (fun e => (e.2.body.length : Int))).sum)
        ≤ c.maxSize →
      ((c.insertAll entries).2).all id = true := by
  intro entries
  induction entries with
  | nil => intro c _ _; rfl
  | cons e rest ih =>
    intro c hsc hsum
    have hrest_nonneg :
        0 ≤ (rest.map (fun e => (e.2.body.length : Int))).sum :=
      List.sum_nonneg (by
        intro x hx
        simp only [List.mem_map] at hx
        obtain ⟨y, _, hy⟩ := hx
        exact hy ▸ Int.natCast_nonneg _)
    have hold := oldSize_nonneg c e.1
    have hsum' : c.totalSize + (e.2.body.length : Int) ≤ c.maxSize := by
      simp only [List.map_cons, List.sum_cons] at hsum
      omega
    have hfst : (c.set e.1 e.2).1 = true := by
      apply set_succeeds c e.1 e.2 (hsc e (List.mem_cons_self e rest))
      omega
    have hpol := set_policy_eq c e.1 e.2
    have htot := set_totalSize_le c e.1 e.2
    have hbudget :
        ((c.set e.1 e.2).2).totalSize +
          ((rest.map (fun e => (e.2.body.length : Int))).sum)
          ≤ ((c.set e.1 e.2).2).maxSize := by
      rw [hpol.1]
      simp only [List.map_cons, List.sum_cons] at hsum
      omega
    have hrest : (((c.set e.1 e.2).2).insertAll rest).2.all id = true :=
      ih _ (fun e' he' => by
        rw [shouldCache_congr c _ e'.2 hpol.2]
        exact hsc e' (List.mem_cons_of_mem e he')) hbudget
    simp [NetworkCache.insertAll, List.all_cons, hfst, hrest]

/-- Claim C6: `set` rejects an insertion whose net size delta (new body
length minus the length of any same-key entry being replaced) would push the
running total over the global ceiling — returning `false` and leaving the
cache (entries and total size) completely unchanged — while inserting
policy-conforming entries whose cumulative size stays within the ceiling
always succeeds. -/
theorem C6_global_ceiling :
    (∀ (c : NetworkCache) (key : String) (r : CachedResponse),
        c.maxSize < c.totalSize + ((r.body.length : Int) - c.oldSize key) →
        c.set key r = (false, c)) ∧
    (∀ (ms mrs : Int) (entries : List (String × CachedResponse)),
        (∀ e ∈ entries, (NetworkCache.mkCache ms mrs).shouldCache e.2 = true) →
        ((entries.map (fun e => (e.2.body.length : Int))).sum ≤ ms) →
        (((NetworkCache.mkCache ms mrs).insertAll entries).2).all id
          = true) := by
  constructor
  · intro c key r h
    unfold NetworkCache.set
    dsimp only
    split_ifs with h1
    · rfl
    · rfl
  · intro ms mrs entries hsc hsum
    exact insertAll_under_budget entries (NetworkCache.mkCache ms mrs) hsc
      (by simpa [NetworkCache.mkCache] using hsum)

/-- A small conforming script response used in concrete witnesses. -/
def smallScript : CachedResponse :=
  { requestId := "req-s", url := "https://example.com/app.js", method := "GET",
    requestHeaders := [], postData := none, status := 200,
    responseHeaders := [], body := [1, 2, 3],
    mimeType := "text/javascript", resourceType := "script", timestamp := 0 }

/-- A small conforming stylesheet response used in concrete witnesses. -/
def smallStyle : CachedResponse :=
  { requestId := "req-c", url := "https://example.com/app.css", method := "GET",
    requestHeaders := [], postData := none, status := 200,
    responseHeaders := [], body := [4, 5],
    mimeType := "text/css", resourceType := "stylesheet", timestamp := 0 }

/-- Witness for `C6_global_ceiling`: a 3-byte script overflows a 2-byte
global ceiling and is rejected as a no-op, while two conforming entries of
total size 5 are both admitted under a 100-byte ceiling. -/
theorem C6_global_ceiling_witness :
    (NetworkCache.mkCache 2 100).set "k" smallScript =
      (false, NetworkCache.mkCache 2 100) ∧
    (((NetworkCache.mkCache 100 50).insertAll
        [("a", smallScript), ("b", smallStyle)]).2).all id = true := by
  constructor
  · exact C6_global_ceiling.1 (NetworkCache.mkCache 2 100) "k" smallScript
      (by norm_num [NetworkCache.mkCache, NetworkCache.oldSize, lookupKey,
        smallScript])
  · exact C6_global_ceiling.2 100 50 [("a", smallScript), ("b", smallStyle)]
      (by decide) (by decide)

/-! ### Claim C7 — export/import round-trip -/

/-- Lookup skips a block in which the key does not occur. -/
theorem lookupKey_append_none {β : Type} (k : String)
    (l1 l2 : List (String × β)) (h : lookupKey k l1 = none) :
    lookupKey k (l1 ++ l2) = lookupKey k l2 := by
  induction l1 with
  | nil => rfl
  | cons e rest ih =>
    by_cases he : e.1 = k
    · rw [lookupKey, if_pos he] at h
      exact Option.noConfusion h
    · rw [lookupKey, if_neg he] at h
      rw [List.cons_append, lookupKey, if_neg he]
      exact ih h

/-- Updating a key that is absent appends the new entry at the end,
exactly as `Map.set` does. -/
theorem updateAssoc_of_lookup_none {β : Type}
    (l : List (String × β)) (k : String) (v : β)
    (h : lookupKey k l = none) : updateAssoc l k v = l ++ [(k, v)] := by
  induction l with
  | nil => rfl
  | cons e rest ih =>
    by_cases he : e.1 = k
    · simp [lookupKey, he] at h
    · simp only [lookupKey, he, if_false] at h
      simp only [updateAssoc, he, if_false, List.cons_append]
      rw [ih h]

/-- A single-entry lookup of a different key misses. -/
theorem lookupKey_singleton_ne {β : Type} (k k' : String) (v : β)
    (h : k' ≠ k) : lookupKey k [(k', v)] = none := by
  simp [lookupKey, h]

/-- Re-inserting pairwise-fresh, policy-conforming, budget-fitting entries
appends them in order, admits every one, and accumulates exactly their
summed body lengths. -/
theorem insertAll_rebuild :
    ∀ (l : List (String × CachedResponse)) (c : NetworkCache),
      (∀ e ∈ l, c.shouldCache e.2 = true) →
      (∀ e ∈ l, lookupKey e.1 c.cache = none) →
      (l.map Prod.fst).Nodup →
      c.totalSize + ((l.map (fun e => (e.2.body.length : Int))).sum)
        ≤ c.maxSize →
      c.insertAll l =
        ({ c with
            cache := c.cache ++ l,
            totalSize :=
              c.totalSize +
                ((l.map (fun e => (e.2.body.length : Int))).sum) },
          List.replicate l.length true) := by
  intro l
  induction l with
  | nil => intro c _ _ _ _; simp [NetworkCache.insertAll]
  | cons e rest ih =>
    intro c hsc hlk hnd hbudget
    have hrest_nonneg :
        0 ≤ (rest.map (fun e => (e.2.body.length : Int))).sum :=
      List.sum_nonneg (by
        intro x hx
        simp only [List.mem_map] at hx
        obtain ⟨y, _, hy⟩ := hx
        exact hy ▸ Int.natCast_nonneg _)
    have hold : c.oldSize e.1 = 0 := by
      unfold NetworkCache.oldSize
      rw [hlk e (List.mem_cons_self e rest)]
    have hsum_cons :
        ((e :: rest).map (fun e => (e.2.body.length : Int))).sum =
          (e.2.body.length : Int) +
            (rest.map (fun e => (e.2.body.length : Int))).sum := by
      simp
    have hfits :
        ¬ (c.totalSize + ((e.2.body.length : Int) - c.oldSize e.1)
            > c.maxSize) := by
      rw [hold]
      rw [hsum_cons] at hbudget
      omega
    have hset : c.set e.1 e.2 =
        (true,
          { c with
            cache := c.cache ++ [(e.1, e.2)],
            totalSize := c.totalSize + (e.2.body.length : Int) }) := by
      unfold NetworkCache.set
      dsimp only
      rw [if_neg (by simp [hsc e (List.mem_cons_self e rest)]), if_neg hfits]
      rw [updateAssoc_of_lookup_none _ _ _ (hlk e (List.mem_cons_self e rest))]
      rw [hold]
      norm_num
    have hkey_not_rest : e.1 ∉ rest.map Prod.fst := by
      simp only [List.map_cons, List.nodup_cons] at hnd
      exact hnd.1
    set c' : NetworkCache :=
      { c with
        cache := c.cache ++ [(e.1, e.2)],
        totalSize := c.totalSize + (e.2.body.length : Int) } with hc'
    have hrest := ih c'
      (fun e' he' => by
        rw [shouldCache_congr c c' e'.2 rfl]
        exact hsc e' (List.mem_cons_of_mem e he'))
      (fun e' he' => by
        have h1 : lookupKey e'.1 c.cache = none :=
          hlk e' (List.mem_cons_of_mem e he')
        have hne : e'.1 ≠ e.1 := by
          intro hcontra
          exact hkey_not_rest (hcontra ▸ List.mem_map_of_mem Prod.fst he')
        show lookupKey e'.1 (c.cache ++ [(e.1, e.2)]) = none
        rw [lookupKey_append_none _ _ _ h1]
        exact lookupKey_singleton_ne _ _ _ (Ne.symm hne))
      (by
        simp only [List.map_cons, List.nodup_cons] at hnd
        exact hnd.2)
      (by
        show c.totalSize + (e.2.body.length : Int) + _ ≤ c.maxSize
        rw [hsum_cons] at hbudget
        omega)
    show c.insertAll (e :: rest) = _
    unfold NetworkCache.insertAll
    rw [hset]
    dsimp only
    rw [hrest]
    dsimp only
    rw [hsum_cons]
    rw [List.append_assoc]
    simp only [List.singleton_append, List.length_cons, List.replicate_succ]
    rw [add_assoc]

/-- The invariant every cache built through `set` satisfies: `totalSize` is
the sum of the stored body lengths, every stored entry passes the admission
policy, the total is within the global ceiling, and keys are unique (a
`Map` property). -/
def NetworkCache.WellFormed (c : NetworkCache) : Prop :=
  c.totalSize = ((c.cache.map (fun e => (e.2.body.length : Int))).sum) ∧
  (∀ e ∈ c.cache, c.shouldCache e.2 = true) ∧
  c.totalSize ≤ c.maxSize ∧
  (c.cache.map Prod.fst).Nodup

/-- Claim C7: with unchanged policy, `import(export())` reproduces the cache
exactly — same ordered key/entry list (hence the same key set and
byte-identical bodies), same `totalSize`, and therefore identical stats
including size by resource type; no entry is dropped, which is exactly the
set of entries failing re-admission under the unchanged policy (none). -/
theorem C7_roundtrip (c : NetworkCache) (h : c.WellFormed) :
    c.importData c.exportEntries = c := by
  obtain ⟨hsum, hsc, hle, hnd⟩ := h
  unfold NetworkCache.importData NetworkCache.exportEntries
  have hre := insertAll_rebuild c.cache c.clear
    (fun e he => by
      rw [shouldCache_congr c c.clear e.2 rfl]
      exact hsc e he)
    (fun e _ => rfl)
    hnd
    (by
      show (0 : Int) + _ ≤ c.maxSize
      rw [← hsum]
      omega)
  rw [hre]
  show (⟨[] ++ c.cache, 0 + _, c.maxSize, c.maxResponseSize⟩ : NetworkCache) = c
  rw [List.nil_append, zero_add, ← hsum]

/-- A concrete two-entry cache used as the round-trip witness. -/
def sampleCache : NetworkCache :=
  ((((NetworkCache.mkCache 100 10).set "a" smallScript).2).set
    "b" smallStyle).2

/-- Witness for `C7_roundtrip` at the concrete two-entry `sampleCache`. -/
theorem C7_roundtrip_witness :
    sampleCache.importData sampleCache.exportEntries = sampleCache :=
  C7_roundtrip sampleCache
    ⟨by decide, by decide, by decide, by decide⟩

/-! ### Claim C8 — fingerprint determinism -/

/-- The `criticalHeaders` array of `getCacheKey` (both copies). -/
def criticalHeaders : List String :=
  ["content-type", "accept", "authorization", "cookie"]

/-- `request.headers[h] || request.headers[h.toLowerCase()] || ''`: the
looked-up value, or the empty string when the header is absent.  (Every name
in `criticalHeaders` is already lowercase, so the second lookup coincides
with the first, and a stored empty-string value also yields `''`.) -/
def headerValue (headers : List (String × String)) (h : String) : String :=
  match lookupKey h headers with
  | some v => v
  | none => ""

/-- The `headerParts` string: `name:value` fragments of the four critical
headers joined with `|`. -/
def headerParts (headers : List (String × String)) : String :=
  String.intercalate "|" (criticalHeaders.map
    (fun h => h ++ ":" ++ headerValue headers h))

/-- The request fields read by `getCacheKey` (the `CacheKey` interface). -/
structure CacheKeyRequest where
  method : String
  url : String
  headers : List (String × String)
  postData : Option String
deriving DecidableEq, Repr

/-- The `${method}:${url}:${headerParts}` stem of the key. -/
def baseKey (req : CacheKeyRequest) : String :=
  req.method ++ ":" ++ req.url ++ ":" ++ headerParts req.headers

/-- JS truthiness of `request.postData`: present and non-empty.  (An empty
string is falsy in JS, so `if (request.postData)` skips it.) -/
def postDataTruthy : Option String → Bool
  | none => false
  | some s => !s.isEmpty

/-- `NetworkCache.getCacheKey`, parameterised by the external body-digest
function (`sha256` hex truncated to 16 characters in the source, provided by
the `crypto` library and therefore abstract here). -/
def NetworkCache.getCacheKey (hash : String → String)
    (req : CacheKeyRequest) : String :=
  if postDataTruthy req.postData then
    baseKey req ++ ":" ++ hash (req.postData.getD "")
  else baseKey req

/-- The clone-side free function `getCacheKey` at the bottom of the
orchestrator file — a verbatim copy of the method above, transcribed
independently. -/
def cloneGetCacheKey (hash : String → String)
    (req : CacheKeyRequest) : String :=
  if postDataTruthy req.postData then
    baseKey req ++ ":" ++ hash (req.postData.getD "")
  else baseKey req

/-- The body as the key computation sees it: absent and empty-string bodies
are indistinguishable (both falsy). -/
def effectiveBody : Option String → Option String
  | none => none
  | some s => if s.isEmpty then none else some s

/-- The optional body digest entering the key. -/
def bodyDigest (hash : String → String) : Option String → Option String
  | none => none
  | some s => if s.isEmpty then none else some (hash s)

theorem bodyDigest_eq_map (hash : String → String) (pd : Option String) :
    bodyDigest hash pd = (effectiveBody pd).map hash := by
  cases pd with
  | none => rfl
  | some s =>
    by_cases hs : s.isEmpty <;> simp [bodyDigest, effectiveBody, hs]

/-- The key is the stem, extended by `:`-digest exactly when the effective
body is present. -/
theorem getCacheKey_digestForm (hash : String → String)
    (req : CacheKeyRequest) :
    NetworkCache.getCacheKey hash req =
      (match effectiveBody req.postData with
        | none => baseKey req
        | some s => baseKey req ++ ":" ++ hash s) := by
  cases hpd : req.postData with
  | none => simp [NetworkCache.getCacheKey, postDataTruthy, effectiveBody, hpd]
  | some s =>
    by_cases hs : s.isEmpty <;>
      simp [NetworkCache.getCacheKey, postDataTruthy, effectiveBody, hpd, hs]

/-- `headerParts` depends only on the values of the four critical headers. -/
theorem headerParts_congr (h1 h2 : List (String × String))
    (h : ∀ s ∈ criticalHeaders, headerValue h1 s = headerValue h2 s) :
    headerParts h1 = headerParts h2 := by
  have e1 := h "content-type" (by simp [criticalHeaders])
  have e2 := h "accept" (by simp [criticalHeaders])
  have e3 := h "authorization" (by simp [criticalHeaders])
  have e4 := h "cookie" (by simp [criticalHeaders])
  unfold headerParts criticalHeaders
  simp only [List.map_cons, List.map_nil]
  rw [e1, e2, e3, e4]

/-- The key stem depends only on method, URL and critical header values. -/
theorem baseKey_congr (r1 r2 : CacheKeyRequest) (hm : r1.method = r2.method)
    (hu : r1.url = r2.url)
    (hh : ∀ s ∈ criticalHeaders, headerValue r1.headers s = headerValue r2.headers s) :
    baseKey r1 = baseKey r2 := by
  unfold baseKey
  rw [hm, hu, headerParts_congr r1.headers r2.headers hh]

/-- Appending to the same stem is injective. -/
theorem string_append_left_cancel (s t u : String) (h : s ++ t = s ++ u) :
    t = u := by
  have hd : s.data ++ t.data = s.data ++ u.data := by
    have := congrArg String.data h
    simpa using this
  have hdata := List.append_cancel_left hd
  cases t
  cases u
  exact congrArg String.mk hdata

/-- A strict extension of the stem is never equal to the stem. -/
theorem string_append_colon_ne (s t : String) :
    s ≠ s ++ ":" ++ t := by
  intro h
  have hlen := congrArg String.length h
  rw [String.length_append, String.length_append] at hlen
  have hc : (":" : String).length = 1 := rfl
  rw [hc] at hlen
  omega

/-- Claim C8: `getCacheKey` is a pure deterministic function of method, URL,
the four critical header values (empty when absent) and the optional body
digest.  Conjuncts: (1) the capture-time method and the replay-time
clone-side copy compute identical keys; (2) two requests agreeing on those
inputs get the identical key string; (3) a request differing only by an
additional non-critical header gets the same key; (4) with an injective
digest, two requests agreeing on everything except the (effective) body get
different keys. -/
theorem C8_fingerprint :
    (∀ (hash : String → String) (req : CacheKeyRequest),
        NetworkCache.getCacheKey hash req = cloneGetCacheKey hash req) ∧
    (∀ (hash : String → String) (r1 r2 : CacheKeyRequest),
        r1.method = r2.method → r1.url = r2.url →
        (∀ s ∈ criticalHeaders,
          headerValue r1.headers s = headerValue r2.headers s) →
        bodyDigest hash r1.postData = bodyDigest hash r2.postData →
        NetworkCache.getCacheKey hash r1 = NetworkCache.getCacheKey hash r2) ∧
    (∀ (hash : String → String) (m u : String)
        (headers : List (String × String)) (pd : Option String)
        (n v : String), n ∉ criticalHeaders →
        NetworkCache.getCacheKey hash ⟨m, u, (n, v) :: headers, pd⟩ =
          NetworkCache.getCacheKey hash ⟨m, u, headers, pd⟩) ∧
    (∀ (hash : String → String), Function.Injective hash →
        ∀ (r1 r2 : CacheKeyRequest),
        r1.method = r2.method → r1.url = r2.url →
        (∀ s ∈ criticalHeaders,
          headerValue r1.headers s = headerValue r2.headers s) →
        effectiveBody r1.postData ≠ effectiveBody r2.postData →
        NetworkCache.getCacheKey hash r1 ≠ NetworkCache.getCacheKey hash r2) := by
  refine ⟨fun _ _ => rfl, ?_, ?_, ?_⟩
  · intro hash r1 r2 hm hu hh hd
    rw [getCacheKey_digestForm, getCacheKey_digestForm]
    rw [bodyDigest_eq_map, bodyDigest_eq_map] at hd
    rw [baseKey_congr r1 r2 hm hu hh]
    cases he1 : effectiveBody r1.postData with
    | none =>
      rw [he1] at hd
      cases he2 : effectiveBody r2.postData with
      | none => rfl
      | some s2 => rw [he2] at hd; exact Option.noConfusion hd
    | some s1 =>
      rw [he1] at hd
      cases he2 : effectiveBody r2.postData with
      | none => rw [he2] at hd; exact Option.noConfusion hd
      | some s2 =>
        rw [he2] at hd
        have hs12 : hash s1 = hash s2 := by simpa using hd
        dsimp only
        rw [hs12]
  · intro hash m u headers pd n v hn
    have hh : ∀ s ∈ criticalHeaders,
        headerValue ((n, v) :: headers) s = headerValue headers s := by
      intro s hs
      have hne : n ≠ s := fun hcontra => hn (hcontra ▸ hs)
      unfold headerValue
      rw [lookupKey, if_neg hne]
    have hb : baseKey ⟨m, u, (n, v) :: headers, pd⟩ =
        baseKey ⟨m, u, headers, pd⟩ := by
      unfold baseKey
      dsimp only
      rw [headerParts_congr ((n, v) :: headers) headers hh]
    rw [getCacheKey_digestForm, getCacheKey_digestForm]
    simp only [hb]
  · intro hash hinj r1 r2 hm hu hh hne
    rw [getCacheKey_digestForm, getCacheKey_digestForm,
      baseKey_congr r1 r2 hm hu hh]
    cases he1 : effectiveBody r1.postData with
    | none =>
      cases he2 : effectiveBody r2.postData with
      | none => exact absurd (he1.trans he2.symm) hne
      | some s2 => exact string_append_colon_ne _ _
    | some s1 =>
      cases he2 : effectiveBody r2.postData with
      | none => exact (string_append_colon_ne _ _).symm
      | some s2 =>
        intro hkey
        have hs : hash s1 = hash s2 :=
          string_append_left_cancel _ _ _ hkey
        have : s1 = s2 := hinj hs
        rw [he1, he2, this] at hne
        exact hne rfl

/-- A concrete request: non-critical `x-test` header plus body `abc`. -/
def reqA : CacheKeyRequest :=
  { method := "GET", url := "https://example.com/",
    headers := [("accept", "text/html"), ("x-test", "1")],
    postData := some "abc" }

/-- `reqA` without its non-critical header. -/
def reqB : CacheKeyRequest :=
  { method := "GET", url := "https://example.com/",
    headers := [("accept", "text/html")], postData := some "abc" }

/-- `reqB` with a different body. -/
def reqC : CacheKeyRequest :=
  { method := "GET", url := "https://example.com/",
    headers := [("accept", "text/html")], postData := some "abd" }

/-- Witness for `C8_fingerprint` at concrete requests, with the identity as
the (injective) abstract digest. -/
theorem C8_fingerprint_witness :
    NetworkCache.getCacheKey id reqA = cloneGetCacheKey id reqA ∧
    NetworkCache.getCacheKey id reqA = NetworkCache.getCacheKey id reqB ∧
    NetworkCache.getCacheKey id
        ⟨"GET", "https://example.com/",
          ("x-custom", "1") :: [("accept", "text/html")], some "abc"⟩ =
      NetworkCache.getCacheKey id
        ⟨"GET", "https://example.com/", [("accept", "text/html")],
          some "abc"⟩ ∧
    NetworkCache.getCacheKey id reqB ≠ NetworkCache.getCacheKey id reqC :=
  ⟨C8_fingerprint.1 id reqA,
   C8_fingerprint.2.1 id reqA reqB rfl rfl (by decide) (by decide),
   C8_fingerprint.2.2.1 id "GET" "https://example.com/"
     [("accept", "text/html")] (some "abc") "x-custom" "1" (by decide),
   C8_fingerprint.2.2.2 id (fun _ _ h => h) reqB reqC rfl rfl (by decide)
     (by decide)⟩

/-! ### Claim C5 — URL scheme normalization on navigate -/

/-- Acceptance of the `[a-zA-Z\d+\-.]*:` tail of the scheme regex in
`normalizeUrl`: succeed at a `:`, continue through scheme characters, fail
otherwise.  Since `:` is not in the repeated character class, the regex is
deterministic and this recursion is exactly its acceptance. -/
def schemeTail : List Char → Bool
  | [] => false
  | c :: rest =>
    if c = ':' then true
    else if c.isAlphanum || c = '+' || c = '-' || c = '.' then schemeTail rest
    else false

/-- The test `normalized.match(/^[a-zA-Z][a-zA-Z\d+\-.]*:/)`: a leading
ASCII letter followed by a scheme tail ending in `:`. -/
def hasUriScheme (s : String) : Bool :=
  match s.data with
  | [] => false
  | c :: rest => c.isAlpha && schemeTail rest

/-- `String.prototype.trim`: strip leading and trailing whitespace from the
character list. -/
def jsTrim (s : String) : String :=
  String.mk
    (((s.data.dropWhile Char.isWhitespace).reverse.dropWhile
      Char.isWhitespace).reverse)

/-- `normalizeUrl` from `message-handlers.ts`: trim, then prepend
`https://` when no scheme prefix matches.  (The subsequent `new URL(...)`
validity check is a host API: on success the function returns exactly this
normalized string, on failure it throws — the returned string is modelled
here.) -/
def normalizeUrl (url : String) : String :=
  if hasUriScheme (jsTrim url) then jsTrim url
  else "https://" ++ jsTrim url

/-- The argument record of a `page.goto` call. -/
structure GotoRequest where
  url : String
  waitUntil : String
  timeout : Nat
deriving DecidableEq, Repr

/-- The `goto` issued by the `navigate` case of `handleMessage` in
`message-handlers.ts`: navigates to `normalizeUrl(url)`. -/
def handleMessageNavigateGoto (url : String) : GotoRequest :=
  { url := normalizeUrl url, waitUntil := "domcontentloaded",
    timeout := 60000 }

/-- The `goto` issued by the `navigate` case of the websocket `message`
handler in `server.ts`: navigates to `data.url` exactly as received, with no
normalization. -/
def serverNavigateGoto (url : String) : GotoRequest :=
  { url := url, waitUntil := "domcontentloaded", timeout := 30000 }

/-- Claim C5, counterexample: the scheme-less url `example.com` sent in a
`navigate` message to the `server.ts` websocket handler is loaded verbatim,
not as `https://example.com` — the claim fails for that handler. -/
theorem C5_counterexample :
    hasUriScheme "example.com" = false ∧
    (serverNavigateGoto "example.com").url = "example.com" ∧
    "example.com" ≠ "https://example.com" := by
  refine ⟨by decide, rfl, by decide⟩

/-- Claim C5 (amended): the `handleMessage` navigate path of
`message-handlers.ts` normalizes a url whose trimmed form lacks a URI scheme
by prefixing `https://` before loading it; the inline websocket `navigate`
case of `server.ts`, by contrast, passes the url to `page.goto` completely
unchanged. -/
theorem C5_amended :
    (∀ url : String, hasUriScheme (jsTrim url) = false →
        (handleMessageNavigateGoto url).url = "https://" ++ jsTrim url) ∧
    (∀ url : String, (serverNavigateGoto url).url = url) := by
  constructor
  · intro url h
    simp [handleMessageNavigateGoto, normalizeUrl, h]
  · intro url
    rfl

/-- Witness for `C5_amended` at the concrete url `example.com`. -/
theorem C5_amended_witness :
    (handleMessageNavigateGoto "example.com").url =
      "https://" ++ jsTrim "example.com" ∧
    (serverNavigateGoto "example.com").url = "example.com" :=
  ⟨C5_amended.1 "example.com" (by decide), C5_amended.2 "example.com"⟩

/-! ### Claim C3 — mouse-move aggregation in the recording path -/

/-- The per-session `mouseMoveAccumulator` of `SessionContext`. -/
structure MouseMoveAccumulator where
  lastX : Int
  lastY : Int
  lastButton : String
  lastModifiers : Nat
  lastFlush : Nat
deriving DecidableEq, Repr

/-- One inbound `mouseMoved` websocket message, tagged with the value of
`Date.now()` at the moment the handler processes it. -/
structure MouseMovedMsg where
  x : Int
  y : Int
  button : Option String
  modifiers : Option Nat
  now : Nat
deriving DecidableEq, Repr

/-- `data.button || 'none'`: absent or empty-string button becomes
`none`. -/
def jsButton : Option String → String
  | none => "none"
  | some s => if s.isEmpty then "none" else s

/-- A `mouseMoved` entry of the event log (`RecordedEvent` with its `data`
payload flattened). -/
structure MouseMovedRecord where
  timestamp : Nat
  relativeTime : Int
  x : Int
  y : Int
  button : String
  modifiers : Nat
deriving DecidableEq, Repr

/-- Handling of one recorded `mouseMoved` message (`server.ts`, recording
branch): first overwrite the accumulator's latest position/button/modifiers,
then — if at least 100 ms (`AGGREGATE_INTERVAL`) have passed since the last
flush — append one record carrying the accumulator's (just updated) values
and reset the flush clock to now. -/
def recordMouseMoved (sessionStartTime : Nat) (acc : MouseMoveAccumulator)
    (e : MouseMovedMsg) : MouseMoveAccumulator × Option MouseMovedRecord :=
  let acc1 : MouseMoveAccumulator :=
    { acc with
      lastX := e.x, lastY := e.y, lastButton := jsButton e.button,
      lastModifiers := e.modifiers.getD 0 }
  if (100 : Int) ≤ (e.now : Int) - (acc1.lastFlush : Int) then
    ({ acc1 with lastFlush := e.now },
      some { timestamp := e.now,
             relativeTime := (e.now : Int) - (sessionStartTime : Int),
             x := acc1.lastX, y := acc1.lastY, button := acc1.lastButton,
             modifiers := acc1.lastModifiers })
  else (acc1, none)

/-- Handling of a sequence of recorded `mouseMoved` messages: the final
accumulator state and the records appended to the event log, in order. -/
def processMouseMoves (start : Nat) :
    MouseMoveAccumulator → List MouseMovedMsg →
      MouseMoveAccumulator × List MouseMovedRecord
  | acc, [] => (acc, [])
  | acc, e :: rest =>
    let step := recordMouseMoved start acc e
    let next := processMouseMoves start step.1 rest
    (next.1,
      match step.2 with
      | none => next.2
      | some r => r :: next.2)

/-- A fresh accumulator with flush clock at 0. -/
def mmAcc0 : MouseMoveAccumulator :=
  { lastX := 0, lastY := 0, lastButton := "none", lastModifiers := 0,
    lastFlush := 0 }

/-- Move to (1,1) at t=100 ms. -/
def mmE1 : MouseMovedMsg :=
  { x := 1, y := 1, button := none, modifiers := none, now := 100 }

/-- Move to (2,2) at t=150 ms. -/
def mmE2 : MouseMovedMsg :=
  { x := 2, y := 2, button := none, modifiers := none, now := 150 }

/-- Claim C3, counterexample: two `mouseMoved` messages inside one 100 ms
aggregation window (t=100 and t=150, window opened by the flush at t=100)
yield exactly one appended record, but it carries the coordinates (1,1) of
the message that triggered the flush — not the last message's (2,2). -/
theorem C3_counterexample :
    ((processMouseMoves 0 mmAcc0 [mmE1, mmE2]).2).map (fun r => (r.x, r.y))
      = [(1, 1)] ∧
    (mmE2.x, mmE2.y) = (2, 2) ∧
    ¬ (((processMouseMoves 0 mmAcc0 [mmE1, mmE2]).2).map
        (fun r => (r.x, r.y)) = [(mmE2.x, mmE2.y)]) := by
  refine ⟨by decide, by decide, by decide⟩

/-- Messages arriving strictly within 100 ms of the last flush append no
record and leave the flush clock unchanged. -/
theorem processMouseMoves_no_flush (start : Nat) :
    ∀ (l : List MouseMovedMsg) (acc : MouseMoveAccumulator),
      (∀ m ∈ l, (m.now : Int) - (acc.lastFlush : Int) < 100) →
      (processMouseMoves start acc l).2 = [] ∧
      ((processMouseMoves start acc l).1).lastFlush = acc.lastFlush := by
  intro l
  induction l with
  | nil => intro acc _; exact ⟨rfl, rfl⟩
  | cons e rest ih =>
    intro acc h
    have he := h e (List.mem_cons_self e rest)
    have hstep : recordMouseMoved start acc e =
        ({ acc with
           lastX := e.x, lastY := e.y,
           lastButton := jsButton e.button,
           lastModifiers := e.modifiers.getD 0 }, none) := by
      unfold recordMouseMoved
      rw [if_neg (not_le.mpr (by dsimp only; omega))]
    unfold processMouseMoves
    rw [hstep]
    exact ih _ fun m hm => h m (List.mem_cons_of_mem e hm)

/-- Claim C3 (amended): while recording with an armed accumulator, a
`mouseMoved` message appends a record exactly when it arrives at least
100 ms after the last flush, and the appended record carries the
coordinates, button and modifiers of that flush-triggering message (the
latest accumulated values), not of the last message of the window.  In
particular: a batch delivered entirely within 100 ms of the last flush
appends nothing, and a batch whose first message crosses the threshold with
the rest inside the new window appends exactly one record — the first
message's. -/
theorem C3_amended :
    (∀ (start : Nat) (acc : MouseMoveAccumulator) (l : List MouseMovedMsg),
        (∀ m ∈ l, (m.now : Int) - (acc.lastFlush : Int) < 100) →
        (processMouseMoves start acc l).2 = []) ∧
    (∀ (start : Nat) (acc : MouseMoveAccumulator) (e : MouseMovedMsg)
        (rest : List MouseMovedMsg),
        (100 : Int) ≤ (e.now : Int) - (acc.lastFlush : Int) →
        (∀ m ∈ rest, (m.now : Int) - (e.now : Int) < 100) →
        (processMouseMoves start acc (e :: rest)).2 =
          [{ timestamp := e.now,
             relativeTime := (e.now : Int) - (start : Int),
             x := e.x, y := e.y, button := jsButton e.button,
             modifiers := e.modifiers.getD 0 }]) := by
  constructor
  · intro start acc l h
    exact (processMouseMoves_no_flush start l acc h).1
  · intro start acc e rest hcross hrest
    have hstep : recordMouseMoved start acc e =
        ({ lastX := e.x, lastY := e.y, lastButton := jsButton e.button,
            lastModifiers := e.modifiers.getD 0, lastFlush := e.now },
          some { timestamp := e.now,
                 relativeTime := (e.now : Int) - (start : Int),
                 x := e.x, y := e.y, button := jsButton e.button,
                 modifiers := e.modifiers.getD 0 }) := by
      unfold recordMouseMoved
      rw [if_pos hcross]
    unfold processMouseMoves
    rw [hstep]
    dsimp only
    have hrest' := processMouseMoves_no_flush start rest
      { lastX := e.x, lastY := e.y, lastButton := jsButton e.button,
        lastModifiers := e.modifiers.getD 0, lastFlush := e.now }
      (by intro m hm; exact hrest m hm)
    rw [hrest'.1]

/-- Witness for `C3_amended`: two sub-window messages (t=10, t=20) append
nothing; a crossing message (t=100) followed by one at t=150 appends
exactly the crossing message's record. -/
theorem C3_amended_witness :
    (processMouseMoves 0 mmAcc0
      [{ x := 5, y := 5, button := none, modifiers := none, now := 10 },
       { x := 6, y := 6, button := none, modifiers := none, now := 20 }]).2
      = [] ∧
    (processMouseMoves 0 mmAcc0 [mmE1, mmE2]).2 =
      [{ timestamp := 100, relativeTime := 100, x := 1, y := 1,
         button := "none", modifiers := 0 }] :=
  ⟨C3_amended.1 0 mmAcc0 _ (by decide),
   C3_amended.2 0 mmAcc0 mmE1 [mmE2] (by decide) (by decide)⟩

/-! ### Claim C2 — pending-session store: take vs. expiry vs. flushAll -/

/-- One pending entry: the held session (abstract handle) and the absolute
time at which its armed `setTimeout` is scheduled to fire
(`addedAt + ttlMs`). -/
structure PendingEntry where
  session : Nat
  expiresAt : Nat
deriving DecidableEq, Repr

/-- The store's `entries` map.  The runtime is single-threaded: `add`,
`take`, the timer callback, and `flushAll` each run atomically, so the race
in the claim reduces to the order in which those atomic steps run;
"take before the TTL elapsed" means the take step precedes the timer step,
and conversely after it. -/
structure PendingStore where
  entries : List (String × PendingEntry)
deriving DecidableEq, Repr

/-- The internal `remove`: clear the entry's timeout and delete it. -/
def PendingStore.remove (s : PendingStore) (id : String) : PendingStore :=
  { entries := eraseKey s.entries id }

/-- `add`: remove any previous entry for the id (cancelling its timer),
then store the session with a timer armed for `now + ttl`. -/
def PendingStore.add (s : PendingStore) (id : String) (sess : Nat)
    (now ttl : Nat) : PendingStore :=
  { entries := (s.remove id).entries ++ [(id, ⟨sess, now + ttl⟩)] }

/-- `take`: return and remove the entry (cancelling its timer), or report
absence. -/
def PendingStore.take (s : PendingStore) (id : String) :
    PendingStore × Option Nat :=
  match lookupKey id s.entries with
  | none => (s, none)
  | some entry => (s.remove id, some entry.session)

/-- The timer callback armed by `add` (it runs `dispose`, which first
removes the entry and then invokes the dispose callback): the second
component lists the dispose-callback invocations it performs. -/
def PendingStore.fire (s : PendingStore) (id : String) :
    PendingStore × List (String × Nat) :=
  match lookupKey id s.entries with
  | none => (s, [])
  | some entry => (s.remove id, [(id, entry.session)])

/-- `flushAll`: snapshot the entries, clear the map, cancel every timer,
and invoke the dispose callback once per snapshotted entry. -/
def PendingStore.flushAll (s : PendingStore) :
    PendingStore × List (String × Nat) :=
  ({ entries := [] }, s.entries.map (fun e => (e.1, e.2.session)))

/-- `size`. -/
def PendingStore.size (s : PendingStore) : Nat := s.entries.length

/-- Erasing from a list in which the key does not occur changes nothing. -/
theorem eraseKey_of_lookup_none {β : Type} (id : String) :
    ∀ l : List (String × β), lookupKey id l = none → eraseKey l id = l := by
  intro l
  induction l with
  | nil => intro _; rfl
  | cons e rest ih =>
    intro h
    by_cases he : e.1 = id
    · rw [lookupKey, if_pos he] at h
      exact Option.noConfusion h
    · rw [lookupKey, if_neg he] at h
      rw [eraseKey, if_neg he, ih h]

/-- Erasing the single appended entry recovers the original list when the
key was absent from it. -/
theorem eraseKey_append_singleton {β : Type} (id : String) (v : β) :
    ∀ l : List (String × β), lookupKey id l = none →
      eraseKey (l ++ [(id, v)]) id = l := by
  intro l
  induction l with
  | nil => intro _; simp [eraseKey]
  | cons e rest ih =>
    intro h
    by_cases he : e.1 = id
    · rw [lookupKey, if_pos he] at h
      exact Option.noConfusion h
    · rw [lookupKey, if_neg he] at h
      rw [List.cons_append, eraseKey, if_neg he, ih h]

/-- Claim C2: for an id not already pending, after `add`: (a) a `take` that
runs before the timer fires returns the stored session; the entry is gone,
so a second `take` returns absent and a timer callback that fires later (the
losing side of the race) invokes no dispose and leaves the store unchanged;
(b) if the timer fires first (TTL elapsed), dispose is invoked exactly once
with that id and session, and a later `take` returns absent (and a stray
second fire disposes nothing); (c) `flushAll` invokes dispose exactly once
per remaining entry (in store order) and leaves `size()` equal to 0. -/
theorem C2_pending_store (s0 : PendingStore) (id : String) (sess : Nat)
    (now ttl : Nat) (hfresh : lookupKey id s0.entries = none) :
    (((s0.add id sess now ttl).take id).2 = some sess ∧
      ((s0.add id sess now ttl).take id).1 = s0 ∧
      ((((s0.add id sess now ttl).take id).1).take id).2 = none ∧
      (((s0.add id sess now ttl).take id).1).fire id =
        ((((s0.add id sess now ttl).take id).1), [])) ∧
    ((s0.add id sess now ttl).fire id =
        (s0, [(id, sess)]) ∧
      ((((s0.add id sess now ttl).fire id).1).take id).2 = none ∧
      ((((s0.add id sess now ttl).fire id).1).fire id).2 = []) ∧
    (∀ s : PendingStore,
      (s.flushAll).2 = s.entries.map (fun e => (e.1, e.2.session)) ∧
      (s.flushAll).1.size = 0) := by
  have hadd : (s0.add id sess now ttl).entries =
      s0.entries ++ [(id, ⟨sess, now + ttl⟩)] := by
    show (eraseKey s0.entries id) ++ _ = _
    rw [eraseKey_of_lookup_none id s0.entries hfresh]
  have hlook : lookupKey id (s0.add id sess now ttl).entries =
      some ⟨sess, now + ttl⟩ := by
    rw [hadd, lookupKey_append_none id s0.entries _ hfresh]
    rw [lookupKey, if_pos rfl]
  have herase : eraseKey (s0.add id sess now ttl).entries id = s0.entries := by
    rw [hadd]
    exact eraseKey_append_singleton id _ s0.entries hfresh
  have htake : (s0.add id sess now ttl).take id = (s0, some sess) := by
    unfold PendingStore.take
    rw [hlook]
    dsimp only
    unfold PendingStore.remove
    rw [herase]
  have hfire : (s0.add id sess now ttl).fire id = (s0, [(id, sess)]) := by
    unfold PendingStore.fire
    rw [hlook]
    dsimp only
    unfold PendingStore.remove
    rw [herase]
  refine ⟨⟨?_, ?_, ?_, ?_⟩, ⟨?_, ?_, ?_⟩, ?_⟩
  · rw [htake]
  · rw [htake]
  · rw [htake]
    unfold PendingStore.take
    rw [hfresh]
  · rw [htake]
    unfold PendingStore.fire
    rw [hfresh]
  · exact hfire
  · rw [hfire]
    unfold PendingStore.take
    rw [hfresh]
  · rw [hfire]
    unfold PendingStore.fire
    rw [hfresh]
  · intro s
    exact ⟨rfl, rfl⟩

/-- Witness for `C2_pending_store` at a concrete store, id and session. -/
theorem C2_pending_store_witness :
    ((PendingStore.mk []).add "conn-1" 7 0 60000).take "conn-1" =
      (PendingStore.mk [], some 7) ∧
    ((PendingStore.mk []).add "conn-1" 7 0 60000).fire "conn-1" =
      (PendingStore.mk [], [("conn-1", 7)]) ∧
    ((PendingStore.mk [("a", ⟨1, 5⟩), ("b", ⟨2, 9⟩)]).flushAll).2 =
      [("a", 1), ("b", 2)] ∧
    ((PendingStore.mk [("a", ⟨1, 5⟩), ("b", ⟨2, 9⟩)]).flushAll).1.size
      = 0 := by
  have h := C2_pending_store (PendingStore.mk []) "conn-1" 7 0 60000 rfl
  refine ⟨?_, h.2.1.1, ?_, ?_⟩
  · exact Prod.ext_iff.mpr ⟨h.1.2.1, h.1.1⟩
  · exact (h.2.2 (PendingStore.mk [("a", ⟨1, 5⟩), ("b", ⟨2, 9⟩)])).1
  · exact (h.2.2 (PendingStore.mk [("a", ⟨1, 5⟩), ("b", ⟨2, 9⟩)])).2

/-! ### Claim C9 — replay timing -/

/-- `EVENTS_REQUIRING_DELAY` from the orchestrator. -/
def EVENTS_REQUIRING_DELAY : List String :=
  ["mousePressed", "mouseReleased", "paste"]

/-- `EVENT_DELAY_MS` from the orchestrator. -/
def EVENT_DELAY_MS : Nat := 8

/-- A recorded event as the replay engine reads it: type tag and absolute
timestamp.  (The `data` payload and `relativeTime` are not consulted by the
timing logic modelled here.) -/
structure REvent where
  type : String
  timestamp : Nat
deriving DecidableEq, Repr

/-- `options.playbackSpeed ?? 0`. -/
def effectivePlaybackSpeed (o : Option ℚ) : ℚ := o.getD 0

/-- The wait executed before dispatching an event: with a positive speed,
`(event.timestamp − lastTimestamp) / playbackSpeed` when that is positive,
otherwise nothing; with speed 0 the whole block is skipped. -/
def replayWait (speed : ℚ) (last t : Nat) : ℚ :=
  if 0 < speed then
    if 0 < ((t : ℚ) - (last : ℚ)) / speed then ((t : ℚ) - (last : ℚ)) / speed
    else 0
  else 0

/-- One dispatch of the replay loop: the wait inserted before it and the
fixed post-dispatch delay after it. -/
structure ScheduledDispatch where
  waitBefore : ℚ
  event : REvent
  postDelayMs : Nat
deriving DecidableEq, Repr

/-- The replay loop of `replayEvents` over the (already sorted) event list,
threading `lastTimestamp`, which starts at the first event's timestamp and
is set to each event's timestamp after it is processed.  Each dispatch
carries an 8 ms post-delay exactly for `EVENTS_REQUIRING_DELAY` types. -/
def replayLoop (speed : ℚ) : Nat → List REvent → List ScheduledDispatch
  | _, [] => []
  | last, e :: rest =>
    { waitBefore := replayWait speed last e.timestamp,
      event := e,
      postDelayMs :=
        if EVENTS_REQUIRING_DELAY.contains e.type then EVENT_DELAY_MS
        else 0 } :: replayLoop speed e.timestamp rest

/-- `replayEvents`' timing behaviour: sort defensively by timestamp (the
stable sort of `[...].sort((a, b) => a.timestamp - b.timestamp)`), then run
the loop with `lastTimestamp` initialised to the first event's timestamp. -/
def replaySchedule (speed : ℚ) (events : List REvent) :
    List ScheduledDispatch :=
  let sorted := events.insertionSort (fun a b => a.timestamp ≤ b.timestamp)
  replayLoop speed
    (match sorted with
      | [] => 0
      | e :: _ => e.timestamp) sorted

/-- The waits the claim specifies: 0 before the first event (its "previous
timestamp" is its own), then `(tᵢ − tᵢ₋₁) / speed`. -/
def claimedWaits (speed : ℚ) : Nat → List REvent → List ℚ
  | _, [] => []
  | last, e :: rest =>
    ((e.timestamp : ℚ) - (last : ℚ)) / speed
      :: claimedWaits speed e.timestamp rest

/-- On a timestamp-sorted list with positive speed, the loop's waits are
exactly the claimed quotient waits. -/
theorem replayLoop_waits (speed : ℚ) (hs : 0 < speed) :
    ∀ (es : List REvent) (last : Nat),
      List.Sorted (fun a b : REvent => a.timestamp ≤ b.timestamp) es →
      (∀ e ∈ es.head?, last ≤ e.timestamp) →
      (replayLoop speed last es).map (fun d => d.waitBefore) =
        claimedWaits speed last es := by
  intro es
  induction es with
  | nil => intro last _ _; rfl
  | cons e rest ih =>
    intro last hsorted hhead
    have hle : last ≤ e.timestamp := hhead e rfl
    have hwait : replayWait speed last e.timestamp =
        ((e.timestamp : ℚ) - (last : ℚ)) / speed := by
      unfold replayWait
      rw [if_pos hs]
      by_cases hpos : 0 < ((e.timestamp : ℚ) - (last : ℚ)) / speed
      · rw [if_pos hpos]
      · rw [if_neg hpos]
        have hnonneg : 0 ≤ ((e.timestamp : ℚ) - (last : ℚ)) / speed :=
          div_nonneg (by
            have hc : (last : ℚ) ≤ (e.timestamp : ℚ) := by exact_mod_cast hle
            linarith) (le_of_lt hs)
        exact (le_antisymm (not_lt.mp hpos) hnonneg).symm
    rw [replayLoop, claimedWaits, List.map_cons, hwait]
    rw [ih e.timestamp (List.Sorted.of_cons hsorted)
      (by
        intro f hf
        rcases rest with _ | ⟨g, tail⟩
        · exact absurd hf (by simp)
        · have hg : g = f := by simpa using hf
          rw [← hg]
          exact (List.sorted_cons.mp hsorted).1 g (List.mem_cons_self g tail))]

/-- With speed 0 (the forking default) no inter-event wait is ever
inserted. -/
theorem replayLoop_speed_zero :
    ∀ (es : List REvent) (last : Nat),
      (replayLoop 0 last es).map (fun d => d.waitBefore) =
        List.replicate es.length 0 := by
  intro es
  induction es with
  | nil => intro last; rfl
  | cons e rest ih =>
    intro last
    rw [replayLoop, List.map_cons, ih e.timestamp]
    have : replayWait 0 last e.timestamp = 0 := by
      unfold replayWait
      rw [if_neg (lt_irrefl 0)]
    rw [this, List.length_cons, List.replicate_succ]

/-- Every scheduled dispatch carries the fixed 8 ms post-delay exactly for
`mousePressed`, `mouseReleased` and `paste`, independent of speed. -/
theorem replayLoop_post_delay (speed : ℚ) :
    ∀ (es : List REvent) (last : Nat) (d : ScheduledDispatch),
      d ∈ replayLoop speed last es →
      d.postDelayMs =
        (if EVENTS_REQUIRING_DELAY.contains d.event.type then 8 else 0) := by
  intro es
  induction es with
  | nil => intro last d hd; exact absurd hd (by simp [replayLoop])
  | cons e rest ih =>
    intro last d hd
    rw [replayLoop] at hd
    rcases List.mem_cons.mp hd with h | h
    · subst h
      rfl
    · exact ih e.timestamp d h

/-- Claim C9: during replay, with a finite positive `playbackSpeed` the wait
inserted before each event equals `(event.timestamp − previous event's
timestamp) / speed` (0 for the first event, whose reference timestamp is its
own); with the default `playbackSpeed` of exactly 0 no inter-event wait is
inserted at all; and independently of speed, every `mousePressed`,
`mouseReleased` and `paste` dispatch incurs the fixed 8 ms post-dispatch
delay (and no other event type does). -/
theorem C9_replay_timing :
    (∀ speed : ℚ, 0 < speed →
      ∀ es : List REvent,
        List.Sorted (fun a b : REvent => a.timestamp ≤ b.timestamp) es →
        (replaySchedule speed es).map (fun d => d.waitBefore) =
          claimedWaits speed
            (match es with
              | [] => 0
              | e :: _ => e.timestamp) es) ∧
    (∀ es : List REvent,
      (replaySchedule 0 es).map (fun d => d.waitBefore) =
        List.replicate es.length 0) ∧
    (∀ (speed : ℚ) (es : List REvent) (d : ScheduledDispatch),
      d ∈ replaySchedule speed es →
      d.postDelayMs =
        (if EVENTS_REQUIRING_DELAY.contains d.event.type then 8 else 0)) ∧
    effectivePlaybackSpeed none = 0 := by
  refine ⟨?_, ?_, ?_, rfl⟩
  · intro speed hs es hsorted
    unfold replaySchedule
    rw [List.Sorted.insertionSort_eq hsorted]
    cases es with
    | nil => rfl
    | cons e rest =>
      exact replayLoop_waits speed hs (e :: rest) e.timestamp hsorted
        (by intro f hf; rw [Option.mem_def, List.head?] at hf
            rw [Option.some.injEq] at hf
            rw [← hf])
  · intro es
    unfold replaySchedule
    rw [replayLoop_speed_zero, List.length_insertionSort]
  · intro speed es d hd
    unfold replaySchedule at hd
    exact replayLoop_post_delay speed _ _ d hd

/-- The concrete sorted two-event log used as the replay-timing witness. -/
def replayEvs : List REvent :=
  [{ type := "mousePressed", timestamp := 100 },
   { type := "mouseMoved", timestamp := 150 }]

/-- Witness for `C9_replay_timing`: at speed 2 the waits are the claimed
quotients ([0, 25]); at speed 0 both waits are 0; the first dispatch (a
`mousePressed`) carries the 8 ms post-delay; the default option value is
speed 0. -/
theorem C9_replay_timing_witness :
    (replaySchedule 2 replayEvs).map (fun d => d.waitBefore) =
      claimedWaits 2 100 replayEvs ∧
    (replaySchedule 0 replayEvs).map (fun d => d.waitBefore) =
      List.replicate replayEvs.length 0 ∧
    ({ waitBefore := 0, event := { type := "mousePressed", timestamp := 100 },
       postDelayMs := 8 } : ScheduledDispatch).postDelayMs =
      (if EVENTS_REQUIRING_DELAY.contains "mousePressed" then 8 else 0) ∧
    effectivePlaybackSpeed none = 0 :=
  ⟨C9_replay_timing.1 2 (by norm_num) replayEvs (by decide),
   C9_replay_timing.2.1 replayEvs,
   C9_replay_timing.2.2.1 2 replayEvs
     { waitBefore := 0, event := { type := "mousePressed", timestamp := 100 },
       postDelayMs := 8 }
     (by
       have hsched : replaySchedule 2 replayEvs =
           [{ waitBefore := 0,
              event := { type := "mousePressed", timestamp := 100 },
              postDelayMs := 8 },
            { waitBefore := 25,
              event := { type := "mouseMoved", timestamp := 150 },
              postDelayMs := 0 }] := by
         norm_num [replaySchedule, replayLoop, replayWait, replayEvs,
           List.insertionSort, List.orderedInsert, EVENTS_REQUIRING_DELAY,
           EVENT_DELAY_MS]
         decide
       rw [hsched]
       exact List.mem_cons_self _ _),
   C9_replay_timing.2.2.2⟩

/-! ### Claims C4 and C10 — cloneSession failure cleanup and final cache -/

/-- Injection point for the first failing operation of `cloneSession`
(`none` = every step succeeds).  The steps, in program order:
`createManifest`; `createTargetPage`'s `newPage` and `newCDPSession`;
`setupCacheInterception`; `page.goto`; `replayEvents`. -/
inductive CloneStep where
  | manifest
  | createPage
  | createCdp
  | setupInterception
  | navigation
  | replay
deriving DecidableEq, Repr

/-- Observable outcome of one `cloneSession` run: whether it returned a
session or threw, which target resources were created and which were
released, whether the interception teardown ran, whether the clone cache
was cleared, the `networkCache` of the returned session (on success), and
the source session state after the run. -/
structure CloneRunResult (α : Type) where
  success : Bool
  pageCreated : Bool
  cdpCreated : Bool
  pageClosed : Bool
  cdpDetached : Bool
  teardownRun : Bool
  cacheCleared : Bool
  sessionCache : Option NetworkCache
  sourceAfter : α

/-- Control flow of `cloneSession`, transcribed from the orchestrator:

* `createManifest` runs first; a failure there creates nothing.
* `clonedCache` is a fresh default `NetworkCache` into which the manifest's
  snapshot is imported.
* `createTargetPage` opens the page, then attaches a CDP session; it has no
  internal cleanup, so a `newCDPSession` failure leaves the page open.
* `setupCacheInterception` is invoked *before* the `try`/`finally` block is
  entered; its failure propagates with no teardown and no `disposeTarget`.
* failures of `page.goto` or `replayEvents` occur inside the `try`, so the
  `finally` runs `teardown()`, `clonedCache.clear()` and — because
  `targetAttached` is still `true` — `disposeTarget` (detach CDP, close
  page).
* on success the returned `SessionContext` references `clonedCache`,
  `targetAttached` is set `false`, and the `finally` still runs
  `teardown()` and `clonedCache.clear()` before the value is returned, so
  the returned session's cache is the cleared one.
* the source session is only read (cache export, event-log copy, page
  snapshot), never written. -/
def cloneSessionModel {α : Type} (source : α)
    (snapshotEntries : List (String × CachedResponse))
    (failAt : Option CloneStep) : CloneRunResult α :=
  if failAt = some CloneStep.manifest then
    { success := false, pageCreated := false, cdpCreated := false,
      pageClosed := false, cdpDetached := false, teardownRun := false,
      cacheCleared := false, sessionCache := none, sourceAfter := source }
  else
    let clonedCache := NetworkCache.mkDefault.importData snapshotEntries
    if failAt = some CloneStep.createPage then
      { success := false, pageCreated := false, cdpCreated := false,
        pageClosed := false, cdpDetached := false, teardownRun := false,
        cacheCleared := false, sessionCache := none, sourceAfter := source }
    else if failAt = some CloneStep.createCdp then
      { success := false, pageCreated := true, cdpCreated := false,
        pageClosed := false, cdpDetached := false, teardownRun := false,
        cacheCleared := false, sessionCache := none, sourceAfter := source }
    else if failAt = some CloneStep.setupInterception then
      { success := false, pageCreated := true, cdpCreated := true,
        pageClosed := false, cdpDetached := false, teardownRun := false,
        cacheCleared := false, sessionCache := none, sourceAfter := source }
    else if failAt = some CloneStep.navigation ∨
        failAt = some CloneStep.replay then
      { success := false, pageCreated := true, cdpCreated := true,
        pageClosed := true, cdpDetached := true, teardownRun := true,
        cacheCleared := true, sessionCache := none, sourceAfter := source }
    else
      { success := true, pageCreated := true, cdpCreated := true,
        pageClosed := false, cdpDetached := false, teardownRun := true,
        cacheCleared := true, sessionCache := some clonedCache.clear,
        sourceAfter := source }

/-- Claim C4, counterexample: a failure in `setupCacheInterception` (one of
the claim's covered phases — it is called after the target page and channel
exist but before the `try`/`finally` is entered) propagates while the
created page stays open and the channel stays attached: the target is
orphaned. -/
theorem C4_counterexample :
    (cloneSessionModel () [] (some CloneStep.setupInterception)).success
      = false ∧
    (cloneSessionModel () [] (some CloneStep.setupInterception)).pageCreated
      = true ∧
    (cloneSessionModel () [] (some CloneStep.setupInterception)).cdpCreated
      = true ∧
    (cloneSessionModel () [] (some CloneStep.setupInterception)).pageClosed
      = false ∧
    (cloneSessionModel () [] (some CloneStep.setupInterception)).cdpDetached
      = false := by
  refine ⟨rfl, rfl, rfl, rfl, rfl⟩

/-- Claim C4 (amended): a `cloneSession` failure during navigation or
replay (the phases inside the `try`) cleans up the partially created target
— interception teardown runs, the debug channel is detached and the page is
closed — before the error propagates; a failure while creating the debug
channel or while installing the cache interception, by contrast, leaks the
already-created target.  In every case the source session's state is
unaffected. -/
theorem C4_amended :
    (∀ {α : Type} (source : α) (entries : List (String × CachedResponse))
        (failAt : Option CloneStep),
        failAt = some CloneStep.navigation ∨
          failAt = some CloneStep.replay →
        (cloneSessionModel source entries failAt).success = false ∧
        (cloneSessionModel source entries failAt).teardownRun = true ∧
        (cloneSessionModel source entries failAt).cdpDetached = true ∧
        (cloneSessionModel source entries failAt).pageClosed = true) ∧
    (∀ {α : Type} (source : α) (entries : List (String × CachedResponse))
        (failAt : Option CloneStep),
        (cloneSessionModel source entries failAt).sourceAfter = source) := by
  constructor
  · intro α source entries failAt h
    rcases h with h | h <;> subst h <;> exact ⟨rfl, rfl, rfl, rfl⟩
  · intro α source entries failAt
    rcases failAt with _ | step
    · rfl
    · cases step <;> rfl

/-- Witness for `C4_amended`: a concrete navigation failure is fully
cleaned up, and a concrete successful run leaves the source untouched. -/
theorem C4_amended_witness :
    ((cloneSessionModel (0 : Nat) [] (some CloneStep.navigation)).success
        = false ∧
      (cloneSessionModel (0 : Nat) [] (some CloneStep.navigation)).teardownRun
        = true ∧
      (cloneSessionModel (0 : Nat) [] (some CloneStep.navigation)).cdpDetached
        = true ∧
      (cloneSessionModel (0 : Nat) [] (some CloneStep.navigation)).pageClosed
        = true) ∧
    (cloneSessionModel (0 : Nat) [] none).sourceAfter = 0 :=
  ⟨C4_amended.1 (0 : Nat) [] (some CloneStep.navigation) (Or.inl rfl),
   C4_amended.2 (0 : Nat) [] none⟩

/-- Claim C10: whenever `cloneSession` returns successfully, the
`networkCache` of the returned `SessionContext` is empty — 0 entries and 0
total bytes.  The cache imported from the manifest serves only the
bootstrap interception; the `finally` block clears it (after `teardown()`)
before the function returns, and the returned session holds a reference to
that cleared cache. -/
theorem C10_clone_cache_empty :
    ∀ {α : Type} (source : α) (entries : List (String × CachedResponse)),
      (cloneSessionModel source entries none).success = true ∧
      ((cloneSessionModel source entries none).sessionCache.map
          NetworkCache.getStats) =
        some { entries := 0, totalSize := 0 } := by
  intro α source entries
  exact ⟨rfl, rfl⟩

/-- Witness for `C10_clone_cache_empty` with a non-empty imported
manifest. -/
theorem C10_clone_cache_empty_witness :
    (cloneSessionModel (0 : Nat) [("a", smallScript)] none).success
      = true ∧
    ((cloneSessionModel (0 : Nat) [("a", smallScript)] none).sessionCache.map
        NetworkCache.getStats) =
      some { entries := 0, totalSize := 0 } :=
  C10_clone_cache_empty (0 : Nat) [("a", smallScript)]
